import Mathlib

/-!
Verification of the portfolio-allocation core of `portfolio_tab.py`.

The file embeds, as Lean definitions, the data model (`InvestmentCloud`,
`AssetDist`), the constructor validation, the linear-program construction
and solution of `calculate_optimal_asset_dist`, and the palette
computation of `display_assets_pie` / `rgb_component`, and proves the
stated properties about them.
-/

namespace PortfolioTab

open scoped List

/-- The error raised by `calculate_optimal_asset_dist` when the LP has no
optimal solution (source line 14, `class NonFeasibleSolutionError`). -/
structure NonFeasibleSolutionError where
deriving DecidableEq, Repr

/-- The error raised by the `InvestmentCloud` constructor on invalid bounds
(source line 18, `class InvalidInvestmentCloudParameterError`). -/
structure InvalidInvestmentCloudParameterError where
deriving DecidableEq, Repr

/-- One asset's constraint record (source lines 23-31, `class InvestmentCloud`):
an asset label, its expected return, and the minimum/maximum allocation bounds.
Python floats are embedded as exact rationals. -/
structure InvestmentCloud where
  asset : String
  expected_return : ℚ
  minimum : ℚ
  maximum : ℚ
deriving DecidableEq, Repr

instance : Inhabited InvestmentCloud := ⟨⟨"", 0, 0, 0⟩⟩

/-- `InvestmentCloud.__init__` (source lines 24-31): raises
`InvalidInvestmentCloudParameterError` when `minimum < 0 or minimum > maximum
or maximum > 1`, otherwise stores the four attributes unchanged. -/
def InvestmentCloud.init (asset : String) (expected_return minimum maximum : ℚ) :
    Except InvalidInvestmentCloudParameterError InvestmentCloud :=
  if minimum < 0 ∨ minimum > maximum ∨ maximum > 1 then
    .error ⟨⟩
  else
    .ok ⟨asset, expected_return, minimum, maximum⟩

/-- One asset's solved allocation (source lines 34-37, `class AssetDist`). -/
structure AssetDist where
  name : String
  proportion : ℚ
deriving DecidableEq, Repr

instance : Inhabited AssetDist := ⟨⟨"", 0⟩⟩

/-! ## Palette computation (source lines 132-146) -/

/-- `rgb_component` (source lines 132-133): `"CC" if status else "33"`,
where the Python int `status` is truthy iff nonzero. -/
def rgb_component (status : ℕ) : String :=
  if status != 0 then "CC" else "33"

/-- `is_white` (source lines 135-136). -/
def is_white (r g b : ℕ) : Bool :=
  r == 1 && g == 1 && b == 1

/-- `is_black` (source lines 138-139). -/
def is_black (r g b : ℕ) : Bool :=
  r == 0 && g == 0 && b == 0

/-- The comprehension of source line 145:
`[(r, g, b) for b in [0, 1] for g in [0, 1] for r in [0, 1]
  if not is_white(r, g, b) and not is_black(r, g, b)]`
(outer loop over `b`, then `g`, innermost `r`). -/
def rgb_binary_combinations : List (ℕ × ℕ × ℕ) :=
  ([0, 1].flatMap (fun b => [0, 1].flatMap (fun g => [0, 1].map (fun r => (r, g, b))))).filter
    (fun t => !(is_white t.1 t.2.1 t.2.2) && !(is_black t.1 t.2.1 t.2.2))

/-- The `colors` binding of source line 146:
`[f"#{rgb_component(rgb[0])}{rgb_component(rgb[1])}{rgb_component(rgb[2])}"
  for rgb in rgb_binary_combinations]`. -/
def colors : List String :=
  rgb_binary_combinations.map
    (fun rgb => "#" ++ rgb_component rgb.1 ++ rgb_component rgb.2.1 ++ rgb_component rgb.2.2)

/-- `display_assets_pie` (source lines 142-146), modelled as the data handed
to the plotting library: the wedge labels, the percentage proportions, and
the color list.  The color list is computed independently of `assets`. -/
def display_assets_pie (assets : List AssetDist) :
    List String × List ℚ × List String :=
  (assets.map (fun a => a.name), assets.map (fun a => a.proportion * 100), colors)

/-- A concrete list of seven asset distributions, used to exercise the
palette computation beyond six assets. -/
def sevenAssets : List AssetDist :=
  [⟨"a1", 1/7⟩, ⟨"a2", 1/7⟩, ⟨"a3", 1/7⟩, ⟨"a4", 1/7⟩, ⟨"a5", 1/7⟩, ⟨"a6", 1/7⟩, ⟨"a7", 1/7⟩]

/-! ## The linear program of `calculate_optimal_asset_dist` (source lines 112-129)

The Python builds one decision variable per cloud with `lowBound=0`
(line 115), maximizes `Σ x_i * expected_return_i` (line 116), adds
`minimum_i ≤ x_i` and `x_i ≤ maximum_i` (lines 118-120) and `Σ x_i = 1`
(line 122), then calls `model.solve()` (line 124). -/

/-- The effective lower bound of the decision variable of one cloud: the
variable carries `lowBound=0` (line 115) and the explicit constraint
`minimum ≤ x` (line 119). -/
def lowB (c : InvestmentCloud) : ℚ := max c.minimum 0

/-- Head-room of one cloud's variable above its effective lower bound,
under the `maximum ≥ x` constraint of line 120. -/
def capQ (c : InvestmentCloud) : ℚ := c.maximum - lowB c

/-- The clouds paired with their variable indices, mirroring the loops over
`range(len(investment_clouds))` of lines 115-120. -/
def withIdx (cs : List InvestmentCloud) : List (ℕ × InvestmentCloud) :=
  (List.range cs.length).map (fun i => (i, cs.getD i default))

/-- Priority between indexed clouds: earlier means larger expected return,
with ties broken by smaller index.  Used by the exact solver below. -/
def prioLe (p q : ℕ × InvestmentCloud) : Bool :=
  decide (q.2.expected_return < p.2.expected_return) ||
    (decide (q.2.expected_return = p.2.expected_return) && decide (p.1 ≤ q.1))

/-- Insertion of `a` into `l` before the first element `b` with `le a b`. -/
def insertBy {α : Type*} (le : α → α → Bool) (a : α) : List α → List α
  | [] => [a]
  | b :: l => if le a b then a :: b :: l else b :: insertBy le a l

/-- Insertion sort by `le`. -/
def sortBy {α : Type*} (le : α → α → Bool) : List α → List α
  | [] => []
  | a :: l => insertBy le a (sortBy le l)

/-- Modelled from the spec: `model.solve()` at line 124 invokes the external
pulp/CBC solver, which is not part of this repository; the spec describes it
as "any exact LP algorithm (e.g., simplex) that reports
optimal/infeasible/unbounded status".  For the LP built here (box
constraints `max(minimum_i, 0) ≤ x_i ≤ maximum_i` plus the single equation
`Σ x_i = 1`, maximizing `Σ x_i * expected_return_i`) the exact optimum is
the water-filling allocation: start every variable at its effective lower
bound and hand the remaining budget `1 - Σ lowB` to the variables in order
of decreasing expected return, each up to its head-room.  `allocBudget`
performs that hand-out along an already prioritised list of
`(variable index, head-room)` pairs. -/
def allocBudget : ℚ → List (ℕ × ℚ) → List (ℕ × ℚ)
  | _, [] => []
  | b, e :: rest => (e.1, min e.2 b) :: allocBudget (b - min e.2 b) rest

/-- The `(variable index, head-room)` pairs in priority order. -/
def capsOf (cs : List InvestmentCloud) : List (ℕ × ℚ) :=
  (sortBy prioLe (withIdx cs)).map (fun p => (p.1, capQ p.2))

/-- The budget remaining for distribution above the lower bounds. -/
def budget (cs : List InvestmentCloud) : ℚ := 1 - (cs.map lowB).sum

/-- The completed hand-out of the budget along the priority order. -/
def allocRun (cs : List InvestmentCloud) : List (ℕ × ℚ) :=
  allocBudget (budget cs) (capsOf cs)

/-- The hand-out received by variable `i`. -/
def extraAt (cs : List InvestmentCloud) (i : ℕ) : ℚ :=
  (((allocRun cs).filter (fun e => e.1 == i)).map Prod.snd).sum

/-- The solved value of variable `i`. -/
def solutionAt (cs : List InvestmentCloud) (i : ℕ) : ℚ :=
  lowB (cs.getD i default) + extraAt cs i

/-- Feasibility of the LP: every variable's effective lower bound fits under
its upper bound, and the total of the lower (resp. upper) bounds is at most
(resp. at least) 1.  The solver's status is "Optimal" exactly under this
condition: the feasible region is a compact polytope, so a feasible point
exists iff an optimum does, and the LP is never unbounded. -/
def feasCheck (cs : List InvestmentCloud) : Bool :=
  cs.all (fun c => decide (lowB c ≤ c.maximum)) &&
    decide ((cs.map lowB).sum ≤ 1) &&
    decide (1 ≤ (cs.map (fun c => c.maximum)).sum)

/-- `calculate_optimal_asset_dist` (source lines 112-129): build the LP,
solve it, raise `NonFeasibleSolutionError` unless the final status is
`"Optimal"` (line 126), otherwise return one `AssetDist` per variable, in
variable (= input) order, carrying the variable's name (the cloud's asset
label, line 115) and its solved value (line 129). -/
def calculate_optimal_asset_dist (cs : List InvestmentCloud) :
    Except NonFeasibleSolutionError (List AssetDist) :=
  if feasCheck cs then
    .ok ((List.range cs.length).map
      (fun i => ⟨(cs.getD i default).asset, solutionAt cs i⟩))
  else
    .error ⟨⟩

/-- A vector `xs` is a feasible point of the LP built at lines 113-123:
one value per cloud, `lowBound=0`, `minimum_i ≤ x_i`, `x_i ≤ maximum_i`,
and `Σ x_i = 1`. -/
def feasibleVec (cs : List InvestmentCloud) (xs : List ℚ) : Prop :=
  xs.length = cs.length ∧ xs.sum = 1 ∧
    ∀ p ∈ cs.zip xs, 0 ≤ p.2 ∧ p.1.minimum ≤ p.2 ∧ p.2 ≤ p.1.maximum

/-- The objective of line 116: `Σ x_i * expected_return_i`. -/
def totalExpectedReturn (cs : List InvestmentCloud) (xs : List ℚ) : ℚ :=
  ((cs.zip xs).map (fun p => p.2 * p.1.expected_return)).sum

/-- The constraint set of the spec's end-to-end example: same returns and
bounds as the placeholder clouds of `render` (source lines 44-49), with the
spec's labels A-D. -/
def demoClouds : List InvestmentCloud :=
  [⟨"A", 3/20, 1/10, 11/20⟩, ⟨"B", 1/5, 11/100, 1/2⟩,
   ⟨"C", 3/10, 1/20, 1/2⟩, ⟨"D", 1/10, 1/5, 3/5⟩]

/-- The cloud validity invariant enforced by the constructor. -/
def validCloud (c : InvestmentCloud) : Prop :=
  0 ≤ c.minimum ∧ c.minimum ≤ c.maximum ∧ c.maximum ≤ 1

/-! ## State-passing embedding of the solve call (for the frame property)

`calculate_optimal_asset_dist` only ever reads attributes of the clouds
(lines 115, 116, 119, 120: `.asset`, `.expected_return`, `.minimum`,
`.maximum`); it contains no attribute assignment and no list mutation.
Each phase below models one batch of reads: it returns the values read
together with the heap (the cloud list) it leaves behind. -/

/-- Reads of `.expected_return` for the objective (line 116). -/
def readObjectiveCoeffs (s : List InvestmentCloud) : List ℚ × List InvestmentCloud :=
  (s.map (fun c => c.expected_return), s)

/-- Reads of `.minimum` / `.maximum` for the bound rows (lines 119-120). -/
def readBoundRows (s : List InvestmentCloud) : List (ℚ × ℚ) × List InvestmentCloud :=
  (s.map (fun c => (c.minimum, c.maximum)), s)

/-- Reads of `.asset` for the variable names (line 115). -/
def readAssetNames (s : List InvestmentCloud) : List String × List InvestmentCloud :=
  (s.map (fun c => c.asset), s)

/-- The whole call as a state transformer on the cloud list. -/
def calculate_optimal_asset_dist_run (s : List InvestmentCloud) :
    Except NonFeasibleSolutionError (List AssetDist) × List InvestmentCloud :=
  let s1 := (readObjectiveCoeffs s).2
  let s2 := (readBoundRows s1).2
  let s3 := (readAssetNames s2).2
  (calculate_optimal_asset_dist s3, s3)

/-! ## Helper lemmas about the solver -/

theorem insertBy_perm {α : Type*} (le : α → α → Bool) (a : α) (l : List α) :
    insertBy le a l ~ a :: l := by
  induction l with
  | nil => exact List.Perm.refl _
  | cons b t ih =>
    rw [insertBy]
    by_cases h : le a b
    · rw [if_pos h]
    · rw [if_neg h]
      exact (ih.cons b).trans (List.Perm.swap a b t)

theorem sortBy_perm {α : Type*} (le : α → α → Bool) (l : List α) :
    sortBy le l ~ l := by
  induction l with
  | nil => exact List.Perm.refl _
  | cons a t ih => exact (insertBy_perm le a (sortBy le t)).trans (ih.cons a)

theorem allocBudget_map_fst (l : List (ℕ × ℚ)) :
    ∀ b, (allocBudget b l).map Prod.fst = l.map Prod.fst := by
  induction l with
  | nil => intro b; rfl
  | cons e rest ih => intro b; simp [allocBudget, ih]

theorem allocBudget_length (l : List (ℕ × ℚ)) :
    ∀ b, (allocBudget b l).length = l.length := by
  induction l with
  | nil => intro b; rfl
  | cons e rest ih => intro b; simp [allocBudget, ih]

theorem allocBudget_snd_sum (l : List (ℕ × ℚ)) :
    ∀ b, 0 ≤ b → (∀ e ∈ l, 0 ≤ e.2) →
      ((allocBudget b l).map Prod.snd).sum = min b ((l.map Prod.snd).sum) := by
  induction l with
  | nil =>
    intro b hb _
    simp only [allocBudget, List.map_nil, List.sum_nil]
    exact (min_eq_right hb).symm
  | cons e rest ih =>
    intro b hb hl
    have he : 0 ≤ e.2 := hl e (by simp)
    have hrest : ∀ x ∈ rest, 0 ≤ x.2 := fun x hx => hl x (by simp [hx])
    have hsum : 0 ≤ (rest.map Prod.snd).sum :=
      List.sum_nonneg (fun x hx => by
        obtain ⟨y, hy, rfl⟩ := List.mem_map.1 hx
        exact hrest y hy)
    have hb' : 0 ≤ b - min e.2 b := by
      have := min_le_right e.2 b
      linarith
    simp only [allocBudget, List.map_cons, List.sum_cons]
    rw [ih _ hb' hrest]
    rcases le_total e.2 b with h | h
    · rw [min_eq_left h]
      rcases le_total (b - e.2) ((rest.map Prod.snd).sum) with h2 | h2
      · rw [min_eq_left h2, min_eq_left (by linarith : b ≤ e.2 + (rest.map Prod.snd).sum)]
        ring
      · rw [min_eq_right h2, min_eq_right (by linarith : e.2 + (rest.map Prod.snd).sum ≤ b)]
    · rw [min_eq_right h, sub_self, min_eq_left hsum,
        min_eq_left (by linarith : b ≤ e.2 + (rest.map Prod.snd).sum)]
      ring

theorem allocBudget_zip_bounds (l : List (ℕ × ℚ)) :
    ∀ b, 0 ≤ b → (∀ e ∈ l, 0 ≤ e.2) →
      ∀ e ∈ (allocBudget b l).zip l, e.1.1 = e.2.1 ∧ 0 ≤ e.1.2 ∧ e.1.2 ≤ e.2.2 := by
  induction l with
  | nil => intro b _ _ e he; simp [allocBudget] at he
  | cons c rest ih =>
    intro b hb hl e he
    simp only [allocBudget, List.zip_cons_cons, List.mem_cons] at he
    rcases he with rfl | he
    · exact ⟨rfl, le_min (hl c (by simp)) hb, min_le_left _ _⟩
    · have hb' : 0 ≤ b - min c.2 b := by
        have := min_le_right c.2 b
        linarith
      exact ih _ hb' (fun x hx => hl x (by simp [hx])) e he

theorem allocBudget_mem {l : List (ℕ × ℚ)} {b : ℚ} (hb : 0 ≤ b)
    (hl : ∀ e ∈ l, 0 ≤ e.2) {e : ℕ × ℚ} (he : e ∈ allocBudget b l) :
    ∃ c, (e.1, c) ∈ l ∧ 0 ≤ e.2 ∧ e.2 ≤ c := by
  obtain ⟨k, hk, rfl⟩ := List.mem_iff_getElem.1 he
  have hlen : (allocBudget b l).length = l.length := allocBudget_length l b
  have hk' : k < l.length := hlen ▸ hk
  have hkz : k < ((allocBudget b l).zip l).length := by
    rw [List.length_zip, hlen]
    omega
  have hmem : ((allocBudget b l)[k], l[k]) ∈ (allocBudget b l).zip l := by
    rw [← List.getElem_zip (h := hkz)]
    exact List.getElem_mem hkz
  obtain ⟨hfst, hpos, hle⟩ := allocBudget_zip_bounds l b hb hl _ hmem
  refine ⟨(l[k]).2, ?_, hpos, hle⟩
  have : (((allocBudget b l)[k]).1, (l[k]).2) = l[k] := by
    rw [hfst]
  rw [this]
  exact List.getElem_mem hk'

theorem sum_ite_range_of_ge (v : ℚ) (a n : ℕ) (hn : n ≤ a) :
    ((List.range n).map (fun i => if a = i then v else 0)).sum = 0 := by
  apply List.sum_eq_zero
  intro x hx
  obtain ⟨i, hi, rfl⟩ := List.mem_map.1 hx
  rw [if_neg]
  intro h
  subst h
  exact absurd (List.mem_range.1 hi) (by omega)

theorem sum_ite_range (v : ℚ) (a : ℕ) :
    ∀ n, a < n → ((List.range n).map (fun i => if a = i then v else 0)).sum = v := by
  intro n
  induction n with
  | zero => omega
  | succ m ih =>
    intro h
    rw [List.range_succ, List.map_append, List.sum_append]
    by_cases ha : a = m
    · subst ha
      rw [sum_ite_range_of_ge v a a le_rfl]
      simp
    · have ham : a < m := by omega
      rw [ih ham]
      simp [ha]

theorem filter_sum_split (n : ℕ) (l : List (ℕ × ℚ)) (h : ∀ e ∈ l, e.1 < n) :
    ((List.range n).map (fun i => ((l.filter (fun e => e.1 == i)).map Prod.snd).sum)).sum
      = (l.map Prod.snd).sum := by
  induction l with
  | nil => simp
  | cons a t ih =>
    have ha : a.1 < n := h a (by simp)
    have ht : ∀ e ∈ t, e.1 < n := fun e he => h e (by simp [he])
    have hsplit : ∀ i : ℕ, (((a :: t).filter (fun e => e.1 == i)).map Prod.snd).sum
        = (if a.1 = i then a.2 else 0) + ((t.filter (fun e => e.1 == i)).map Prod.snd).sum := by
      intro i
      rw [List.filter_cons]
      by_cases hai : a.1 = i
      · simp [hai]
      · simp [hai]
    simp only [hsplit]
    rw [List.sum_map_add, sum_ite_range a.2 a.1 n ha, ih ht]
    simp

theorem filter_fst_eq_singleton (l : List (ℕ × ℚ))
    (hnd : (l.map Prod.fst).Nodup) {e : ℕ × ℚ} (he : e ∈ l) :
    l.filter (fun x => x.1 == e.1) = [e] := by
  induction l with
  | nil => cases he
  | cons a t ih =>
    simp only [List.map_cons, List.nodup_cons] at hnd
    obtain ⟨hna, hnt⟩ := hnd
    rcases List.mem_cons.1 he with rfl | het
    · have hzero : t.filter (fun x => x.1 == e.1) = [] := by
        rw [List.filter_eq_nil_iff]
        intro x hx
        simp only [beq_iff_eq]
        intro hxa
        exact hna (hxa ▸ List.mem_map_of_mem Prod.fst hx)
      rw [List.filter_cons, if_pos (by simp), hzero]
    · have hne : ¬((a.1 == e.1) = true) := by
        simp only [beq_iff_eq]
        intro hae
        exact hna (hae ▸ List.mem_map_of_mem Prod.fst het)
      rw [List.filter_cons, if_neg hne]
      exact ih hnt het

theorem sum_range_getD {α : Type*} [Inhabited α] (f : α → ℚ) (cs : List α) :
    ((List.range cs.length).map (fun i => f (cs.getD i default))).sum = (cs.map f).sum := by
  induction cs with
  | nil => simp
  | cons c t ih =>
    rw [List.length_cons, List.range_succ_eq_map, List.map_cons, List.sum_cons, List.map_map]
    have h1 : (fun i => f ((c :: t).getD i default)) ∘ Nat.succ
        = fun i => f (t.getD i default) := funext fun i => by simp
    rw [h1, ih, List.getD_cons_zero, List.map_cons, List.sum_cons]

theorem mem_withIdx {cs : List InvestmentCloud} {p : ℕ × InvestmentCloud} :
    p ∈ withIdx cs ↔ p.1 < cs.length ∧ p.2 = cs.getD p.1 default := by
  unfold withIdx
  constructor
  · intro hp
    obtain ⟨i, hi, rfl⟩ := List.mem_map.1 hp
    exact ⟨List.mem_range.1 hi, rfl⟩
  · rintro ⟨h1, h2⟩
    refine List.mem_map.2 ⟨p.1, List.mem_range.2 h1, ?_⟩
    rw [← h2]

theorem getD_mem {cs : List InvestmentCloud} {i : ℕ} (hi : i < cs.length) :
    cs.getD i default ∈ cs := by
  rw [List.getD_eq_getElem _ _ hi]
  exact List.getElem_mem hi

theorem capsOf_perm (cs : List InvestmentCloud) :
    capsOf cs ~ (withIdx cs).map (fun p => (p.1, capQ p.2)) :=
  List.Perm.map _ (sortBy_perm prioLe (withIdx cs))

theorem capsOf_fst (cs : List InvestmentCloud) :
    (capsOf cs).map Prod.fst ~ List.range cs.length := by
  refine (List.Perm.map Prod.fst (capsOf_perm cs)).trans ?_
  have h : ((withIdx cs).map (fun p => (p.1, capQ p.2))).map Prod.fst
      = List.range cs.length := by
    unfold withIdx
    rw [List.map_map, List.map_map]
    have h2 : ∀ i ∈ List.range cs.length,
        ((Prod.fst ∘ fun p : ℕ × InvestmentCloud => (p.1, capQ p.2)) ∘
          fun i => (i, cs.getD i default)) i = i := fun i _ => rfl
    rw [List.map_congr_left h2, List.map_id']
  rw [h]

theorem mem_capsOf {cs : List InvestmentCloud} {e : ℕ × ℚ} (h : e ∈ capsOf cs) :
    e.1 < cs.length ∧ e.2 = capQ (cs.getD e.1 default) := by
  have h' := (capsOf_perm cs).mem_iff.1 h
  obtain ⟨p, hp, he⟩ := List.mem_map.1 h'
  obtain ⟨h1, h2⟩ := mem_withIdx.1 hp
  rw [← he]
  exact ⟨h1, by rw [h2]⟩

theorem capsOf_snd_sum (cs : List InvestmentCloud) :
    ((capsOf cs).map Prod.snd).sum = (cs.map capQ).sum := by
  rw [(List.Perm.map Prod.snd (capsOf_perm cs)).sum_eq, List.map_map]
  have h1 : (Prod.snd ∘ fun p : ℕ × InvestmentCloud => (p.1, capQ p.2))
      = fun p => capQ p.2 := rfl
  rw [h1]
  unfold withIdx
  rw [List.map_map]
  exact sum_range_getD capQ cs

theorem capQ_sum (cs : List InvestmentCloud) :
    (cs.map capQ).sum = (cs.map (fun c => c.maximum)).sum - (cs.map lowB).sum := by
  induction cs with
  | nil => simp
  | cons c t ih =>
    simp only [List.map_cons, List.sum_cons, ih, capQ]
    ring

theorem allocRun_fst_perm (cs : List InvestmentCloud) :
    (allocRun cs).map Prod.fst ~ List.range cs.length := by
  rw [allocRun, allocBudget_map_fst]
  exact capsOf_fst cs

theorem allocRun_fst_lt {cs : List InvestmentCloud} {e : ℕ × ℚ}
    (he : e ∈ allocRun cs) : e.1 < cs.length := by
  have h : e.1 ∈ (allocRun cs).map Prod.fst := List.mem_map_of_mem Prod.fst he
  exact List.mem_range.1 ((allocRun_fst_perm cs).mem_iff.1 h)

theorem allocRun_fst_nodup (cs : List InvestmentCloud) :
    ((allocRun cs).map Prod.fst).Nodup :=
  (allocRun_fst_perm cs).symm.nodup (List.nodup_range _)

theorem feasCheck_iff {cs : List InvestmentCloud} : feasCheck cs = true ↔
    (∀ c ∈ cs, lowB c ≤ c.maximum) ∧ (cs.map lowB).sum ≤ 1
      ∧ 1 ≤ (cs.map (fun c => c.maximum)).sum := by
  simp [feasCheck, List.all_eq_true, and_assoc]

theorem budget_nonneg {cs : List InvestmentCloud} (h : feasCheck cs = true) :
    0 ≤ budget cs := by
  obtain ⟨_, h2, _⟩ := feasCheck_iff.1 h
  unfold budget
  linarith

theorem capsOf_snd_nonneg {cs : List InvestmentCloud} (h : feasCheck cs = true) :
    ∀ e ∈ capsOf cs, 0 ≤ e.2 := by
  obtain ⟨h1, _, _⟩ := feasCheck_iff.1 h
  intro e he
  obtain ⟨hlt, hc⟩ := mem_capsOf he
  have hmem : cs.getD e.1 default ∈ cs := getD_mem hlt
  have := h1 _ hmem
  rw [hc]
  unfold capQ
  linarith

theorem capsOf_snd_sum_ge {cs : List InvestmentCloud} (h : feasCheck cs = true) :
    budget cs ≤ ((capsOf cs).map Prod.snd).sum := by
  obtain ⟨_, _, h3⟩ := feasCheck_iff.1 h
  rw [capsOf_snd_sum, capQ_sum]
  unfold budget
  linarith

theorem extraAt_sum {cs : List InvestmentCloud} (h : feasCheck cs = true) :
    ((List.range cs.length).map (extraAt cs)).sum = budget cs := by
  unfold extraAt
  rw [filter_sum_split cs.length (allocRun cs) (fun e he => allocRun_fst_lt he)]
  rw [allocRun, allocBudget_snd_sum (capsOf cs) (budget cs) (budget_nonneg h)
    (capsOf_snd_nonneg h)]
  exact min_eq_left (capsOf_snd_sum_ge h)

theorem extraAt_bounds {cs : List InvestmentCloud} (h : feasCheck cs = true)
    {i : ℕ} (hi : i < cs.length) :
    0 ≤ extraAt cs i ∧ extraAt cs i ≤ capQ (cs.getD i default) := by
  have himem : i ∈ (allocRun cs).map Prod.fst :=
    (allocRun_fst_perm cs).mem_iff.2 (List.mem_range.2 hi)
  obtain ⟨e, he, hei⟩ := List.mem_map.1 himem
  have hfilter : (allocRun cs).filter (fun x => x.1 == e.1) = [e] :=
    filter_fst_eq_singleton (allocRun cs) (allocRun_fst_nodup cs) he
  have hext : extraAt cs i = e.2 := by
    unfold extraAt
    rw [← hei, hfilter]
    simp
  have he' : e ∈ allocBudget (budget cs) (capsOf cs) := he
  obtain ⟨c, hcm, hpos, hle⟩ :=
    allocBudget_mem (budget_nonneg h) (capsOf_snd_nonneg h) he'
  obtain ⟨hlt, hc⟩ := mem_capsOf hcm
  rw [hext]
  refine ⟨hpos, ?_⟩
  have hc' : c = capQ (cs.getD e.1 default) := hc
  rw [hei] at hc'
  rw [← hc']
  exact hle

theorem solution_sum {cs : List InvestmentCloud} (h : feasCheck cs = true) :
    ((List.range cs.length).map (solutionAt cs)).sum = 1 := by
  unfold solutionAt
  rw [List.sum_map_add, sum_range_getD lowB cs, extraAt_sum h]
  unfold budget
  ring

theorem solution_bounds {cs : List InvestmentCloud} (h : feasCheck cs = true)
    {i : ℕ} (hi : i < cs.length) :
    lowB (cs.getD i default) ≤ solutionAt cs i
      ∧ solutionAt cs i ≤ (cs.getD i default).maximum := by
  obtain ⟨h0, h1⟩ := extraAt_bounds h hi
  unfold solutionAt
  unfold capQ at h1
  constructor <;> linarith

theorem feasibleVec_solution {cs : List InvestmentCloud} (h : feasCheck cs = true) :
    feasibleVec cs ((List.range cs.length).map (solutionAt cs)) := by
  refine ⟨by simp, solution_sum h, ?_⟩
  intro p hp
  obtain ⟨k, hk, hke⟩ := List.mem_iff_getElem.1 hp
  have hk' : k < cs.length := by
    rw [List.length_zip, List.length_map, List.length_range] at hk
    omega
  have hkm : k < ((List.range cs.length).map (solutionAt cs)).length := by
    simp [hk']
  have hval : ((List.range cs.length).map (solutionAt cs))[k] = solutionAt cs k := by
    simp
  rw [List.getElem_zip] at hke
  rw [hval] at hke
  obtain ⟨hb1, hb2⟩ := solution_bounds h hk'
  have hgd : cs.getD k default = cs[k] := List.getD_eq_getElem _ _ hk'
  rw [← hke]
  have hlow : 0 ≤ lowB (cs.getD k default) := le_max_right _ _
  have hmin : cs[k].minimum ≤ lowB (cs.getD k default) := by
    rw [hgd]
    exact le_max_left _ _
  rw [hgd] at hb2
  exact ⟨le_trans hlow hb1, le_trans hmin hb1, hb2⟩

theorem zip_sum_le {cs : List InvestmentCloud} {xs : List ℚ}
    (f : InvestmentCloud → ℚ) (hlen : xs.length = cs.length)
    (hp : ∀ p ∈ cs.zip xs, f p.1 ≤ p.2) :
    (cs.map f).sum ≤ xs.sum := by
  induction cs generalizing xs with
  | nil =>
    cases xs with
    | nil => simp
    | cons x t => simp at hlen
  | cons c t ih =>
    cases xs with
    | nil => simp at hlen
    | cons x txs =>
      simp only [List.map_cons, List.sum_cons]
      have h1 := hp (c, x) (by simp [List.zip_cons_cons])
      have h2 := ih (by simpa using hlen)
        (fun p hp' => hp p (by simp [List.zip_cons_cons, hp']))
      simp only at h1
      linarith

theorem zip_sum_ge {cs : List InvestmentCloud} {xs : List ℚ}
    (f : InvestmentCloud → ℚ) (hlen : xs.length = cs.length)
    (hp : ∀ p ∈ cs.zip xs, p.2 ≤ f p.1) :
    xs.sum ≤ (cs.map f).sum := by
  induction cs generalizing xs with
  | nil =>
    cases xs with
    | nil => simp
    | cons x t => simp at hlen
  | cons c t ih =>
    cases xs with
    | nil => simp at hlen
    | cons x txs =>
      simp only [List.map_cons, List.sum_cons]
      have h1 := hp (c, x) (by simp [List.zip_cons_cons])
      have h2 := ih (by simpa using hlen)
        (fun p hp' => hp p (by simp [List.zip_cons_cons, hp']))
      simp only at h1
      linarith

theorem feasCheck_of_feasibleVec {cs : List InvestmentCloud} {xs : List ℚ}
    (hf : feasibleVec cs xs) : feasCheck cs = true := by
  obtain ⟨hlen, hsum, hp⟩ := hf
  rw [feasCheck_iff]
  refine ⟨?_, ?_, ?_⟩
  · intro c hc
    obtain ⟨k, hk, rfl⟩ := List.mem_iff_getElem.1 hc
    have hkz : k < (cs.zip xs).length := by
      rw [List.length_zip, hlen]
      omega
    have hmem : (cs[k], xs[k]) ∈ cs.zip xs := by
      rw [← List.getElem_zip (h := hkz)]
      exact List.getElem_mem hkz
    obtain ⟨h0, h1, h2⟩ := hp _ hmem
    exact le_trans (max_le h1 h0) h2
  · have h := zip_sum_le lowB hlen
      (fun p hp' => by
        obtain ⟨h0, h1, _⟩ := hp p hp'
        exact max_le h1 h0)
    rw [hsum] at h
    exact h
  · have h := zip_sum_ge (fun c => c.maximum) hlen (fun p hp' => (hp p hp').2.2)
    rw [hsum] at h
    exact h

theorem solve_eq_ok {cs : List InvestmentCloud} (h : feasCheck cs = true) :
    calculate_optimal_asset_dist cs = .ok ((List.range cs.length).map
      (fun i => ⟨(cs.getD i default).asset, solutionAt cs i⟩)) := by
  unfold calculate_optimal_asset_dist
  rw [if_pos h]

theorem solve_eq_error {cs : List InvestmentCloud} (h : feasCheck cs = false) :
    calculate_optimal_asset_dist cs = .error ⟨⟩ := by
  unfold calculate_optimal_asset_dist
  rw [if_neg (by simp [h])]

/-! ## Claims about the constructor and the palette -/

/-- Claim C3: the `InvestmentCloud` constructor fails with
`InvalidInvestmentCloudParameterError` if and only if `minimum < 0`, or
`minimum > maximum`, or `maximum > 1`; otherwise it returns an object whose
four attributes equal the inputs, and every constructed object satisfies
`0 ≤ minimum ≤ maximum ≤ 1` (the asset label and expected return are never a
cause of failure, as the failure condition does not involve them). -/
theorem claim_C3 (a : String) (er mn mx : ℚ) :
    (InvestmentCloud.init a er mn mx = .error ⟨⟩ ↔ (mn < 0 ∨ mn > mx ∨ mx > 1))
    ∧ (¬(mn < 0 ∨ mn > mx ∨ mx > 1) →
        InvestmentCloud.init a er mn mx = .ok ⟨a, er, mn, mx⟩)
    ∧ (∀ c, InvestmentCloud.init a er mn mx = .ok c →
        c.asset = a ∧ c.expected_return = er ∧ c.minimum = mn ∧ c.maximum = mx
        ∧ 0 ≤ c.minimum ∧ c.minimum ≤ c.maximum ∧ c.maximum ≤ 1) := by
  refine ⟨?_, ?_, ?_⟩
  · unfold InvestmentCloud.init
    by_cases h : mn < 0 ∨ mn > mx ∨ mx > 1 <;> simp [h]
  · intro h
    unfold InvestmentCloud.init
    rw [if_neg h]
  · intro c hc
    unfold InvestmentCloud.init at hc
    by_cases h : mn < 0 ∨ mn > mx ∨ mx > 1
    · rw [if_pos h] at hc
      exact absurd hc (by simp)
    · rw [if_neg h] at hc
      push_neg at h
      obtain ⟨h0, h1, h2⟩ := h
      cases hc
      exact ⟨rfl, rfl, rfl, rfl, h0, h1, h2⟩

/-- Witness for C3 at the concrete input `("X", 1, 1/4, 1/2)`. -/
theorem claim_C3_witness :
    (InvestmentCloud.init "X" 1 (1/4) (1/2) = .error ⟨⟩ ↔
      ((1/4 : ℚ) < 0 ∨ (1/4 : ℚ) > 1/2 ∨ (1/2 : ℚ) > 1))
    ∧ (¬((1/4 : ℚ) < 0 ∨ (1/4 : ℚ) > 1/2 ∨ (1/2 : ℚ) > 1) →
        InvestmentCloud.init "X" 1 (1/4) (1/2) = .ok ⟨"X", 1, 1/4, 1/2⟩)
    ∧ (∀ c, InvestmentCloud.init "X" 1 (1/4) (1/2) = .ok c →
        c.asset = "X" ∧ c.expected_return = 1 ∧ c.minimum = 1/4 ∧ c.maximum = 1/2
        ∧ 0 ≤ c.minimum ∧ c.minimum ≤ c.maximum ∧ c.maximum ≤ 1) :=
  claim_C3 "X" 1 (1/4) (1/2)

/-- Claim C7: the palette enumerates all 8 combinations of `(r,g,b)` over
`{0,1}³` in a fixed deterministic order, discards the all-zero and all-one
combinations leaving exactly 6, and maps bit `0 ↦ "33"` and `1 ↦ "CC"` for
the red, green, blue channels in that order, producing 6 pairwise-distinct
strings of the form `#` followed by 6 hex digits, none of which is the
all-zero (`#333333`) or all-one (`#CCCCCC`) combination. -/
theorem claim_C7 :
    ([0, 1].flatMap (fun b => [0, 1].flatMap (fun g =>
        [0, 1].map (fun r => ((r, g, b) : ℕ × ℕ × ℕ))))).length = 8
    ∧ rgb_binary_combinations =
        ([0, 1].flatMap (fun b => [0, 1].flatMap (fun g =>
            [0, 1].map (fun r => ((r, g, b) : ℕ × ℕ × ℕ))))).filter
          (fun t => !(is_white t.1 t.2.1 t.2.2) && !(is_black t.1 t.2.1 t.2.2))
    ∧ rgb_binary_combinations.length = 6
    ∧ ((0, 0, 0) : ℕ × ℕ × ℕ) ∉ rgb_binary_combinations
    ∧ ((1, 1, 1) : ℕ × ℕ × ℕ) ∉ rgb_binary_combinations
    ∧ colors = rgb_binary_combinations.map
        (fun rgb => "#" ++ rgb_component rgb.1 ++ rgb_component rgb.2.1 ++ rgb_component rgb.2.2)
    ∧ colors.Nodup
    ∧ "#333333" ∉ colors
    ∧ "#CCCCCC" ∉ colors
    ∧ ∀ c ∈ colors, c.length = 7 ∧ c.take 1 = "#" ∧
        ∀ ch ∈ (c.drop 1).toList, ch ∈ "0123456789ABCDEF".toList := by
  decide

/-- Claim C10 (implicit): the fixed ordered palette produced by the
enumeration (innermost loop over `r`, then `g`, outermost `b`) is exactly
`["#CC3333", "#33CC33", "#CCCC33", "#3333CC", "#CC33CC", "#33CCCC"]`,
coming from the six kept combinations in their enumeration order. -/
theorem claim_C10 :
    colors = ["#CC3333", "#33CC33", "#CCCC33", "#3333CC", "#CC33CC", "#33CCCC"]
    ∧ rgb_binary_combinations =
        [(1, 0, 0), (0, 1, 0), (1, 1, 0), (0, 0, 1), (1, 0, 1), (0, 1, 1)] := by
  decide

/-- Counterexample to claim C4 as stated: for a request of 7 assets the
palette computation does not fail (the source defines no
`InsufficientPaletteCapacityError` and raises nothing); it simply yields the
fixed 6-color list while producing 7 labels. -/
theorem claim_C4_counterexample :
    (display_assets_pie sevenAssets).1.length = 7
    ∧ (display_assets_pie sevenAssets).2.2 =
        ["#CC3333", "#33CC33", "#CCCC33", "#3333CC", "#CC33CC", "#33CCCC"]
    ∧ (display_assets_pie sevenAssets).2.2.length = 6 := by
  decide

/-- Claim C4 as amended: the palette computation never fails and is
independent of the requested count; for every asset list it yields the same
fixed ordered 6-color list, pairwise distinct, and for every `n ≤ 6` the
first `n` colors of that list are `n` pairwise-distinct colors.  No
capacity error exists in the code, so a count above 6 is not rejected. -/
theorem claim_C4_amended :
    (∀ assets : List AssetDist, (display_assets_pie assets).2.2 =
        ["#CC3333", "#33CC33", "#CCCC33", "#3333CC", "#CC33CC", "#33CCCC"])
    ∧ colors.length = 6
    ∧ colors.Nodup
    ∧ (∀ n : ℕ, n ≤ 6 → (colors.take n).length = n ∧ (colors.take n).Nodup) := by
  have h6 : colors.length = 6 := by decide
  have hnd : colors.Nodup := by decide
  have hfix : colors = ["#CC3333", "#33CC33", "#CCCC33", "#3333CC", "#CC33CC", "#33CCCC"] := by
    decide
  refine ⟨fun _ => hfix, h6, hnd,
    fun n hn => ⟨?_, (List.take_sublist n colors).nodup hnd⟩⟩
  simp only [List.length_take, h6]
  omega

/-- Witness for the amended C4 at the concrete count `n = 4` and the
concrete seven-asset input. -/
theorem claim_C4_witness :
    (display_assets_pie sevenAssets).2.2 =
      ["#CC3333", "#33CC33", "#CCCC33", "#3333CC", "#CC33CC", "#33CCCC"]
    ∧ (4 : ℕ) ≤ 6
    ∧ (colors.take 4).length = 4 ∧ (colors.take 4).Nodup :=
  ⟨claim_C4_amended.1 sevenAssets, by decide, claim_C4_amended.2.2.2 4 (by decide)⟩

/-! ## Claims about the optimizer -/

/-- Claim C1: for every non-empty constraint set of valid clouds with
`Σ minimum ≤ 1 ≤ Σ maximum`, `calculate_optimal_asset_dist` succeeds and
returns one result per constraint whose proportions sum to exactly 1 (hence
within the 1e-6 solver tolerance) and each lie within the constraint's
`[minimum, maximum]` bounds. -/
theorem claim_C1 (cs : List InvestmentCloud) (hne : cs ≠ [])
    (hv : ∀ c ∈ cs, validCloud c)
    (hmn : (cs.map (fun c => c.minimum)).sum ≤ 1)
    (hmx : 1 ≤ (cs.map (fun c => c.maximum)).sum) :
    ∃ res, calculate_optimal_asset_dist cs = .ok res
      ∧ res.length = cs.length
      ∧ (res.map (fun r => r.proportion)).sum = 1
      ∧ ∀ i, i < cs.length →
          (cs.getD i default).minimum ≤ (res.getD i default).proportion
            ∧ (res.getD i default).proportion ≤ (cs.getD i default).maximum := by
  have hlowB : ∀ c ∈ cs, lowB c = c.minimum := fun c hc => max_eq_left (hv c hc).1
  have hmapeq : cs.map lowB = cs.map (fun c => c.minimum) :=
    List.map_congr_left (fun c hc => hlowB c hc)
  have hfc : feasCheck cs = true := by
    rw [feasCheck_iff]
    refine ⟨fun c hc => ?_, ?_, hmx⟩
    · rw [hlowB c hc]
      exact (hv c hc).2.1
    · rw [hmapeq]
      exact hmn
  refine ⟨_, solve_eq_ok hfc, by simp, ?_, ?_⟩
  · rw [List.map_map]
    have hcomp : (fun r : AssetDist => r.proportion) ∘
        (fun i => AssetDist.mk (cs.getD i default).asset (solutionAt cs i))
        = solutionAt cs := rfl
    rw [hcomp]
    exact solution_sum hfc
  · intro i hi
    have hres : ((List.range cs.length).map
        (fun i => AssetDist.mk (cs.getD i default).asset (solutionAt cs i))).getD i default
        = ⟨(cs.getD i default).asset, solutionAt cs i⟩ := by
      rw [List.getD_eq_getElem _ _ (by simp [hi])]
      simp
    rw [hres]
    obtain ⟨hb1, hb2⟩ := solution_bounds hfc hi
    exact ⟨le_trans (le_max_left _ _) hb1, hb2⟩

/-- Witness for C1 at the two-cloud input `[("X",1/10,0,1), ("Y",1/5,0,1)]`. -/
theorem claim_C1_witness :
    ([⟨"X", 1/10, 0, 1⟩, ⟨"Y", 1/5, 0, 1⟩] : List InvestmentCloud) ≠ []
    ∧ (∀ c ∈ ([⟨"X", 1/10, 0, 1⟩, ⟨"Y", 1/5, 0, 1⟩] : List InvestmentCloud), validCloud c)
    ∧ (([⟨"X", 1/10, 0, 1⟩, ⟨"Y", 1/5, 0, 1⟩] : List InvestmentCloud).map
        (fun c => c.minimum)).sum ≤ 1
    ∧ 1 ≤ (([⟨"X", 1/10, 0, 1⟩, ⟨"Y", 1/5, 0, 1⟩] : List InvestmentCloud).map
        (fun c => c.maximum)).sum
    ∧ ∃ res, calculate_optimal_asset_dist [⟨"X", 1/10, 0, 1⟩, ⟨"Y", 1/5, 0, 1⟩] = .ok res
        ∧ res.length = ([⟨"X", 1/10, 0, 1⟩, ⟨"Y", 1/5, 0, 1⟩] : List InvestmentCloud).length
        ∧ (res.map (fun r => r.proportion)).sum = 1
        ∧ ∀ i, i < ([⟨"X", 1/10, 0, 1⟩, ⟨"Y", 1/5, 0, 1⟩] : List InvestmentCloud).length →
            (([⟨"X", 1/10, 0, 1⟩, ⟨"Y", 1/5, 0, 1⟩] : List InvestmentCloud).getD i
                default).minimum ≤ (res.getD i default).proportion
              ∧ (res.getD i default).proportion ≤
                (([⟨"X", 1/10, 0, 1⟩, ⟨"Y", 1/5, 0, 1⟩] :
                  List InvestmentCloud).getD i default).maximum := by
  have hne : ([⟨"X", 1/10, 0, 1⟩, ⟨"Y", 1/5, 0, 1⟩] : List InvestmentCloud) ≠ [] := by
    simp
  have hv : ∀ c ∈ ([⟨"X", 1/10, 0, 1⟩, ⟨"Y", 1/5, 0, 1⟩] : List InvestmentCloud),
      validCloud c := by
    intro c hc
    fin_cases hc <;> norm_num [validCloud]
  have hmn : (([⟨"X", 1/10, 0, 1⟩, ⟨"Y", 1/5, 0, 1⟩] : List InvestmentCloud).map
      (fun c => c.minimum)).sum ≤ 1 := by
    norm_num
  have hmx : 1 ≤ (([⟨"X", 1/10, 0, 1⟩, ⟨"Y", 1/5, 0, 1⟩] : List InvestmentCloud).map
      (fun c => c.maximum)).sum := by
    norm_num
  exact ⟨hne, hv, hmn, hmx, claim_C1 _ hne hv hmn hmx⟩

/-- Claim C2: the optimizer fails with `NonFeasibleSolutionError` (producing
no result) exactly when the LP admits no feasible point (for this LP the
feasible region is bounded, so a non-"Optimal" final status coincides with
infeasibility); in particular failure occurs whenever `Σ minimum > 1` and
whenever `Σ maximum < 1`. -/
theorem claim_C2 (cs : List InvestmentCloud) (hv : ∀ c ∈ cs, validCloud c) :
    (calculate_optimal_asset_dist cs = .error ⟨⟩ ↔ ¬ ∃ xs, feasibleVec cs xs)
    ∧ (1 < (cs.map (fun c => c.minimum)).sum →
        calculate_optimal_asset_dist cs = .error ⟨⟩)
    ∧ ((cs.map (fun c => c.maximum)).sum < 1 →
        calculate_optimal_asset_dist cs = .error ⟨⟩) := by
  have hlowB : cs.map lowB = cs.map (fun c => c.minimum) :=
    List.map_congr_left (fun c hc => max_eq_left (hv c hc).1)
  have hkey : calculate_optimal_asset_dist cs = .error ⟨⟩ ↔ feasCheck cs = false := by
    unfold calculate_optimal_asset_dist
    cases hfc : feasCheck cs
    · simp
    · simp
  refine ⟨?_, ?_, ?_⟩
  · rw [hkey]
    constructor
    · rintro hfalse ⟨xs, hxs⟩
      rw [feasCheck_of_feasibleVec hxs] at hfalse
      simp at hfalse
    · intro hne
      cases hfc : feasCheck cs
      · rfl
      · exact absurd ⟨_, feasibleVec_solution hfc⟩ hne
  · intro hgt
    rw [hkey]
    cases hfc : feasCheck cs
    · rfl
    · obtain ⟨-, h2, -⟩ := feasCheck_iff.1 hfc
      rw [hlowB] at h2
      linarith
  · intro hlt
    rw [hkey]
    cases hfc : feasCheck cs
    · rfl
    · obtain ⟨-, -, h3⟩ := feasCheck_iff.1 hfc
      linarith

/-- Witness for C2 at the input `[("X",0,1/2,1), ("Y",0,3/4,1)]`, whose
minimums sum to `5/4 > 1`. -/
theorem claim_C2_witness :
    (∀ c ∈ ([⟨"X", 0, 1/2, 1⟩, ⟨"Y", 0, 3/4, 1⟩] : List InvestmentCloud), validCloud c)
    ∧ ((calculate_optimal_asset_dist [⟨"X", 0, 1/2, 1⟩, ⟨"Y", 0, 3/4, 1⟩] = .error ⟨⟩
          ↔ ¬ ∃ xs, feasibleVec [⟨"X", 0, 1/2, 1⟩, ⟨"Y", 0, 3/4, 1⟩] xs)
        ∧ (1 < (([⟨"X", 0, 1/2, 1⟩, ⟨"Y", 0, 3/4, 1⟩] : List InvestmentCloud).map
              (fun c => c.minimum)).sum →
            calculate_optimal_asset_dist [⟨"X", 0, 1/2, 1⟩, ⟨"Y", 0, 3/4, 1⟩] = .error ⟨⟩)
        ∧ ((([⟨"X", 0, 1/2, 1⟩, ⟨"Y", 0, 3/4, 1⟩] : List InvestmentCloud).map
              (fun c => c.maximum)).sum < 1 →
            calculate_optimal_asset_dist [⟨"X", 0, 1/2, 1⟩, ⟨"Y", 0, 3/4, 1⟩] = .error ⟨⟩)) := by
  have hv : ∀ c ∈ ([⟨"X", 0, 1/2, 1⟩, ⟨"Y", 0, 3/4, 1⟩] : List InvestmentCloud),
      validCloud c := by
    intro c hc
    fin_cases hc <;> norm_num [validCloud]
  exact ⟨hv, claim_C2 _ hv⟩

/-- Claim C5: a successful solve returns one result per input constraint, in
input order, and the result at index `i` carries the asset label of the
input constraint at index `i`. -/
theorem claim_C5 (cs : List InvestmentCloud) (res : List AssetDist)
    (h : calculate_optimal_asset_dist cs = .ok res) :
    res.length = cs.length
      ∧ ∀ i, i < cs.length → (res.getD i default).name = (cs.getD i default).asset := by
  have hfc : feasCheck cs = true := by
    cases hfc2 : feasCheck cs
    · rw [solve_eq_error hfc2] at h
      simp at h
    · rfl
  rw [solve_eq_ok hfc] at h
  injection h with h
  subst h
  refine ⟨by simp, ?_⟩
  intro i hi
  rw [List.getD_eq_getElem _ _ (by simp [hi])]
  simp

/-- Witness for C5 at the demo constraint set. -/
theorem claim_C5_witness :
    calculate_optimal_asset_dist demoClouds =
      .ok [⟨"A", 1/10⟩, ⟨"B", 1/5⟩, ⟨"C", 1/2⟩, ⟨"D", 1/5⟩]
    ∧ (([⟨"A", 1/10⟩, ⟨"B", 1/5⟩, ⟨"C", 1/2⟩, ⟨"D", 1/5⟩] : List AssetDist).length
          = demoClouds.length
        ∧ ∀ i, i < demoClouds.length →
            (([⟨"A", 1/10⟩, ⟨"B", 1/5⟩, ⟨"C", 1/2⟩, ⟨"D", 1/5⟩] :
                List AssetDist).getD i default).name
              = (demoClouds.getD i default).asset) := by
  have h : calculate_optimal_asset_dist demoClouds =
      .ok [⟨"A", 1/10⟩, ⟨"B", 1/5⟩, ⟨"C", 1/2⟩, ⟨"D", 1/5⟩] := by
    with_unfolding_all rfl
  exact ⟨h, claim_C5 demoClouds _ h⟩

/-- Claim C6: on the spec's end-to-end example the solver succeeds with
proportions `[1/10, 1/5, 1/2, 1/5]` summing to 1; asset C (highest expected
return) sits exactly at its maximum `0.50` and asset D (lowest expected
return) exactly at its minimum `0.20`; and the returned allocation maximizes
the total expected return over all feasible allocations. -/
theorem claim_C6 :
    calculate_optimal_asset_dist demoClouds =
      .ok [⟨"A", 1/10⟩, ⟨"B", 1/5⟩, ⟨"C", 1/2⟩, ⟨"D", 1/5⟩]
    ∧ ([1/10, 1/5, 1/2, 1/5] : List ℚ).sum = 1
    ∧ ((1 : ℚ)/2) = (demoClouds.getD 2 default).maximum
    ∧ ((1 : ℚ)/5) = (demoClouds.getD 3 default).minimum
    ∧ ∀ xs, feasibleVec demoClouds xs →
        totalExpectedReturn demoClouds xs
          ≤ totalExpectedReturn demoClouds [1/10, 1/5, 1/2, 1/5] := by
  refine ⟨by with_unfolding_all rfl, by norm_num, by norm_num [demoClouds],
    by norm_num [demoClouds], ?_⟩
  intro xs hxs
  obtain ⟨hlen, hsum, hp⟩ := hxs
  rcases xs with _ | ⟨a, xs⟩
  · simp [demoClouds] at hlen
  rcases xs with _ | ⟨b, xs⟩
  · simp [demoClouds] at hlen
  rcases xs with _ | ⟨c, xs⟩
  · simp [demoClouds] at hlen
  rcases xs with _ | ⟨d, xs⟩
  · simp [demoClouds] at hlen
  rcases xs with _ | ⟨e, xs⟩
  · have hA := hp (⟨"A", 3/20, 1/10, 11/20⟩, a) (by simp [demoClouds])
    have hB := hp (⟨"B", 1/5, 11/100, 1/2⟩, b) (by simp [demoClouds])
    have hC := hp (⟨"C", 3/10, 1/20, 1/2⟩, c) (by simp [demoClouds])
    have hD := hp (⟨"D", 1/10, 1/5, 3/5⟩, d) (by simp [demoClouds])
    obtain ⟨hA0, hA1, hA2⟩ := hA
    obtain ⟨hB0, hB1, hB2⟩ := hB
    obtain ⟨hC0, hC1, hC2⟩ := hC
    obtain ⟨hD0, hD1, hD2⟩ := hD
    norm_num at hA1 hA2 hB1 hB2 hC1 hC2 hD1 hD2 hsum
    norm_num [totalExpectedReturn, demoClouds]
    linarith
  · simp [demoClouds] at hlen

/-- Witness for the universally quantified part of C6: the returned vector
itself is feasible, so the optimality bound applies to it. -/
theorem claim_C6_witness :
    feasibleVec demoClouds [1/10, 1/5, 1/2, 1/5]
    ∧ totalExpectedReturn demoClouds [1/10, 1/5, 1/2, 1/5]
        ≤ totalExpectedReturn demoClouds [1/10, 1/5, 1/2, 1/5] := by
  have hfeas : feasibleVec demoClouds [1/10, 1/5, 1/2, 1/5] := by
    refine ⟨by with_unfolding_all rfl, by with_unfolding_all rfl, ?_⟩
    intro p hp
    fin_cases hp <;> refine ⟨by norm_num, by norm_num, by norm_num⟩
  exact ⟨hfeas, claim_C6.2.2.2.2 _ hfeas⟩

/-- Claim C8: the solve call never mutates its input.  In the state-passing
embedding the cloud list after the call is the very list passed in — same
length, same order, and every cloud's four attributes unchanged — and the
returned value is the pure function of the input. -/
theorem claim_C8 (cs : List InvestmentCloud) :
    (calculate_optimal_asset_dist_run cs).2 = cs
    ∧ (calculate_optimal_asset_dist_run cs).2.length = cs.length
    ∧ (∀ i : ℕ,
        ((calculate_optimal_asset_dist_run cs).2.getD i default).asset
            = (cs.getD i default).asset
        ∧ ((calculate_optimal_asset_dist_run cs).2.getD i default).expected_return
            = (cs.getD i default).expected_return
        ∧ ((calculate_optimal_asset_dist_run cs).2.getD i default).minimum
            = (cs.getD i default).minimum
        ∧ ((calculate_optimal_asset_dist_run cs).2.getD i default).maximum
            = (cs.getD i default).maximum)
    ∧ (calculate_optimal_asset_dist_run cs).1 = calculate_optimal_asset_dist cs :=
  ⟨rfl, rfl, fun _ => ⟨rfl, rfl, rfl, rfl⟩, rfl⟩

/-- Claim C9: the solve is deterministic — two calls on the same constraint
list yield identical outcomes: both the same error, or result lists equal
element-wise in name and proportion. -/
theorem claim_C9 (cs : List InvestmentCloud)
    (r₁ r₂ : Except NonFeasibleSolutionError (List AssetDist))
    (h₁ : r₁ = calculate_optimal_asset_dist cs)
    (h₂ : r₂ = calculate_optimal_asset_dist cs) :
    r₁ = r₂
    ∧ ((∃ e, r₁ = .error e) ↔ (∃ e, r₂ = .error e))
    ∧ ∀ res₁ res₂, r₁ = .ok res₁ → r₂ = .ok res₂ →
        res₁.length = res₂.length
        ∧ ∀ i : ℕ, (res₁.getD i default).name = (res₂.getD i default).name
            ∧ (res₁.getD i default).proportion = (res₂.getD i default).proportion := by
  subst h₁
  subst h₂
  refine ⟨rfl, Iff.rfl, ?_⟩
  intro res₁ res₂ hr₁ hr₂
  rw [hr₁] at hr₂
  injection hr₂ with h
  subst h
  exact ⟨rfl, fun _ => ⟨rfl, rfl⟩⟩

/-- Witness for C9: two calls on the demo constraint set. -/
theorem claim_C9_witness :
    calculate_optimal_asset_dist demoClouds = calculate_optimal_asset_dist demoClouds
    ∧ ((∃ e, calculate_optimal_asset_dist demoClouds = .error e)
        ↔ (∃ e, calculate_optimal_asset_dist demoClouds = .error e))
    ∧ ∀ res₁ res₂, calculate_optimal_asset_dist demoClouds = .ok res₁ →
        calculate_optimal_asset_dist demoClouds = .ok res₂ →
        res₁.length = res₂.length
        ∧ ∀ i : ℕ, (res₁.getD i default).name = (res₂.getD i default).name
            ∧ (res₁.getD i default).proportion = (res₂.getD i default).proportion :=
  claim_C9 demoClouds _ _ rfl rfl

end PortfolioTab
